import Mathlib

/-!
Verification of the `kittinook/behavior_tree` engine against its
natural-language specification.  Each Python function named in a claim is
shallowly embedded as an executable Lean definition, translated directly
from `src/behavior_tree/...`; theorems about those definitions settle the
claims.
-/

set_option autoImplicit false

namespace BehaviorTree

/-- Status set of `NodeStatus` in `core/node.py`. -/
inductive NodeStatus where
  | success
  | failure
  | running
  | invalid
  | skipped
  | error
deriving DecidableEq, Repr

/-- Memory policy of composite nodes (`nodes/composites.py`, `MemoryPolicy`). -/
inductive MemoryPolicy where
  | persistent
  | fresh
deriving DecidableEq, Repr

/-! ## SequenceNode (`nodes/composites.py`, `SequenceNode._tick`)

A single `_tick` of a sequence ticks each child at most once, so the
behaviour of the children during one tick is a list of the statuses each
child would return.  `seqLoop mp rest i` is the `while` loop of
`SequenceNode._tick`, where `rest` is the sublist of children from index
`i` (the loop variable `current_child`) to the end. -/

/-- The `while self.current_child < len(self.children)` loop body of
`SequenceNode._tick`: RUNNING returns immediately keeping the index;
FAILURE returns, resetting the index to 0 only under FRESH memory;
every other status falls through to `self.current_child += 1`.
Falling off the end resets the index to 0 and returns SUCCESS. -/
def seqLoop (mp : MemoryPolicy) : List NodeStatus → Nat → NodeStatus × Nat
  | [], _ => (.success, 0)
  | s :: rest, i =>
    if s = .running then (.running, i)
    else if s = .failure then (.failure, if mp = .fresh then 0 else i)
    else seqLoop mp rest (i + 1)

/-- `SequenceNode._tick` for one tick: `children` holds the status each
child returns if ticked this tick, `cc` is `self.current_child` on entry.
Result is the returned status together with `self.current_child` on exit.
Empty children return SUCCESS leaving the index untouched; under FRESH
memory the index is first reset to 0. -/
def sequenceTick (children : List NodeStatus) (mp : MemoryPolicy) (cc : Nat) :
    NodeStatus × Nat :=
  if children.isEmpty then (.success, cc)
  else
    let start := if mp = .fresh then 0 else cc
    seqLoop mp (children.drop start) start

/-- A status that interrupts the sequence loop (the two statuses the loop
tests for). -/
def isHalting : NodeStatus → Bool
  | .running => true
  | .failure => true
  | _ => false

/-- First loop-interrupting status in a list, with its offset. -/
def firstHalt : List NodeStatus → Option (Nat × NodeStatus)
  | [] => none
  | s :: rest =>
    if isHalting s then some (0, s)
    else (firstHalt rest).map (fun p => (p.1 + 1, p.2))

/-- Sequence semantics written from the (amended) specification text:
evaluate children in index order from `current_child` (reset to 0 first
under FRESH); RUNNING at the first running child, preserving the index;
FAILURE at the first failing child, index reset to 0 only under FRESH;
SUCCESS with index 0 when no child interrupts; SUCCESS on empty children. -/
def seqSpec (children : List NodeStatus) (mp : MemoryPolicy) (cc : Nat) :
    NodeStatus × Nat :=
  if children.isEmpty then (.success, cc)
  else
    let start := if mp = .fresh then 0 else cc
    match firstHalt (children.drop start) with
    | some (k, .running) => (.running, start + k)
    | some (k, _) => (.failure, if mp = .fresh then 0 else start + k)
    | none => (.success, 0)

theorem seqLoop_eq_firstHalt (mp : MemoryPolicy) :
    ∀ (l : List NodeStatus) (i : Nat),
      seqLoop mp l i =
        match firstHalt l with
        | some (k, .running) => (.running, i + k)
        | some (k, _) => (.failure, if mp = .fresh then 0 else i + k)
        | none => (.success, 0) := by
  intro l
  induction l with
  | nil => intro i; rfl
  | cons s rest ih =>
    intro i
    by_cases hr : s = .running
    · subst hr; simp [seqLoop, firstHalt, isHalting]
    · by_cases hf : s = .failure
      · subst hf; simp [seqLoop, firstHalt, isHalting]
      · have hhalt : isHalting s = false := by
          cases s <;> simp_all [isHalting]
        simp only [seqLoop, if_neg hr, if_neg hf, firstHalt, hhalt,
          Bool.false_eq_true, if_false]
        rw [ih (i + 1)]
        have hadd : ∀ k : Nat, i + 1 + k = i + (k + 1) := by omega
        cases hfh : firstHalt rest with
        | none => simp
        | some p =>
          obtain ⟨k, s0⟩ := p
          cases s0 <;> simp [Option.map, hadd]

/-- C1, counterexample: the claim asserts that under either memory policy a
failing child resets `current_child` to 0.  With PERSISTENT memory and
children returning SUCCESS then FAILURE, the tick returns FAILURE but
leaves `current_child` at 1 (the failing child's index), not 0. -/
theorem c1_counterexample :
    (sequenceTick [NodeStatus.success, NodeStatus.failure]
        MemoryPolicy.persistent 0).1 = NodeStatus.failure
    ∧ (sequenceTick [NodeStatus.success, NodeStatus.failure]
        MemoryPolicy.persistent 0).2 ≠ 0 := by
  decide

/-- C1, amended: a `SequenceNode` tick evaluates the children in index order
starting from `current_child` (reset to 0 first under FRESH memory); it
returns RUNNING at the first running child with `current_child` left at that
child's index, FAILURE at the first failing child with `current_child` reset
to 0 only under FRESH memory (under PERSISTENT it stays at the failing
child's index), SUCCESS with `current_child` reset to 0 after all children
succeed, and SUCCESS when the children list is empty. -/
theorem c1_spec (children : List NodeStatus) (mp : MemoryPolicy) (cc : Nat) :
    sequenceTick children mp cc = seqSpec children mp cc := by
  unfold sequenceTick seqSpec
  by_cases h : children.isEmpty
  · simp [h]
  · simp only [h, if_false]
    rw [seqLoop_eq_firstHalt]

theorem seqLoop_set_nonhalt (mp : MemoryPolicy) :
    ∀ (l : List NodeStatus) (j i : Nat) (s : NodeStatus),
      isHalting s = false →
      seqLoop mp (l.set j s) i = seqLoop mp (l.set j .success) i := by
  intro l
  induction l with
  | nil => intro j i s _; rfl
  | cons a rest ih =>
    intro j i s hs
    cases j with
    | zero =>
      have h1 : s ≠ NodeStatus.running := by
        rintro rfl; simp [isHalting] at hs
      have h2 : s ≠ NodeStatus.failure := by
        rintro rfl; simp [isHalting] at hs
      simp [seqLoop, h1, h2]
    | succ j =>
      by_cases h1 : a = NodeStatus.running
      · simp [seqLoop, h1]
      · by_cases h2 : a = NodeStatus.failure
        · simp [seqLoop, h1, h2]
        · simp [seqLoop, h1, h2, ih j (i + 1) s hs]

theorem seqLoop_ne_error (mp : MemoryPolicy) :
    ∀ (l : List NodeStatus) (i : Nat), (seqLoop mp l i).1 ≠ NodeStatus.error := by
  intro l
  induction l with
  | nil => intro i; simp [seqLoop]
  | cons a rest ih =>
    intro i
    by_cases h1 : a = NodeStatus.running
    · simp [seqLoop, h1]
    · by_cases h2 : a = NodeStatus.failure
      · simp [seqLoop, h1, h2]
      · simp [seqLoop, h1, h2, ih]

/-- C10: in a `SequenceNode` tick, a child result of ERROR, SKIPPED or
INVALID is treated exactly like SUCCESS (the loop advances past it and
continues), and the sequence never returns ERROR as its own `_tick`
result. -/
theorem c10_error_like_success (children : List NodeStatus) (j : Nat)
    (s : NodeStatus)
    (h : s = NodeStatus.error ∨ s = NodeStatus.skipped ∨ s = NodeStatus.invalid)
    (mp : MemoryPolicy) (cc : Nat) :
    sequenceTick (children.set j s) mp cc
      = sequenceTick (children.set j NodeStatus.success) mp cc
    ∧ (sequenceTick children mp cc).1 ≠ NodeStatus.error := by
  have hs : isHalting s = false := by
    rcases h with rfl | rfl | rfl <;> rfl
  constructor
  · cases children with
    | nil => rfl
    | cons a rest =>
      unfold sequenceTick
      have h1 : ∀ t : NodeStatus, ((a :: rest).set j t).isEmpty = false := by
        intro t; cases j <;> simp
      simp only [h1, Bool.false_eq_true, if_false]
      rw [List.drop_set, List.drop_set]
      by_cases hj : j < (if mp = MemoryPolicy.fresh then 0 else cc)
      · rw [if_pos hj, if_pos hj]
      · rw [if_neg hj, if_neg hj, seqLoop_set_nonhalt mp _ _ _ _ hs]
  · unfold sequenceTick
    by_cases h0 : children.isEmpty
    · simp [h0]
    · simp only [h0, Bool.false_eq_true, if_false]
      exact seqLoop_ne_error mp _ _

/-- Witness for `c10_error_like_success` at a concrete input. -/
theorem c10_witness :
    (NodeStatus.error = NodeStatus.error ∨ NodeStatus.error = NodeStatus.skipped
      ∨ NodeStatus.error = NodeStatus.invalid)
    ∧ (sequenceTick ([NodeStatus.success, NodeStatus.failure].set 1 NodeStatus.error)
          MemoryPolicy.fresh 0
        = sequenceTick ([NodeStatus.success, NodeStatus.failure].set 1 NodeStatus.success)
          MemoryPolicy.fresh 0
      ∧ (sequenceTick [NodeStatus.success, NodeStatus.failure]
          MemoryPolicy.fresh 0).1 ≠ NodeStatus.error) :=
  ⟨Or.inl rfl,
    c10_error_like_success [NodeStatus.success, NodeStatus.failure] 1
      NodeStatus.error (Or.inl rfl) MemoryPolicy.fresh 0⟩

/-! ## BehaviorNode.tick (`core/node.py`)

A predicate (pre- or postcondition) either returns a boolean or raises;
`some b` models a normal return of `b`, `none` models a raised exception
(which `_check_preconditions` / `_check_postconditions` catch and treat as
`False`).  `tickResult` is the subclass `_tick()` outcome: `some s` for a
normal return of status `s`, `none` when `_tick` raises. -/

/-- One observable behaviour of a node during a single public `tick()`. -/
structure TickBehavior where
  initialized : Bool
  preconds : List (Option Bool)
  postconds : List (Option Bool)
  tickResult : Option NodeStatus
deriving DecidableEq, Repr

/-- The loop shared by `_check_preconditions` and `_check_postconditions`:
returns `false` at the first predicate that is false or raises. -/
def checkConds : List (Option Bool) → Bool
  | [] => true
  | some true :: rest => checkConds rest
  | _ :: _ => false

/-- Per-node statistics (`NodeMetadata` in `core/node.py`).  The source
dataclass has exactly these counters: there are no counters for RUNNING,
SKIPPED or INVALID outcomes. -/
structure NodeMetadata where
  total_ticks : Nat
  success_count : Nat
  failure_count : Nat
  error_count : Nat
deriving DecidableEq, Repr

/-- Freshly constructed metadata (dataclass defaults). -/
def NodeMetadata.init : NodeMetadata := ⟨0, 0, 0, 0⟩

/-- `NodeMetadata.update_tick_stats` (duration bookkeeping elided): always
increments `total_ticks`, and increments the matching counter only for
SUCCESS, FAILURE and ERROR. -/
def NodeMetadata.update_tick_stats (m : NodeMetadata) (status : NodeStatus) :
    NodeMetadata :=
  { m with
    total_ticks := m.total_ticks + 1
    success_count :=
      if status = .success then m.success_count + 1 else m.success_count
    failure_count :=
      if status = .failure then m.failure_count + 1 else m.failure_count
    error_count :=
      if status = .error then m.error_count + 1 else m.error_count }

/-- The status computed inside the `try` block of `BehaviorNode.tick`:
`self.status = await self._tick()` followed by the unconditional
postcondition check (a raising `_tick` lands in the `except` branch with
status ERROR and no postcondition check). -/
def tickStatus (b : TickBehavior) : NodeStatus :=
  match b.tickResult with
  | none => .error
  | some s => if checkConds b.postconds then s else .failure

/-- `BehaviorNode.tick`: returns ERROR when uninitialized and SKIPPED when a
precondition fails, both before the timed `try/finally` region, so neither
path updates `metadata`; otherwise the `finally` block records the final
status via `update_tick_stats`. -/
def nodeTick (b : TickBehavior) (m : NodeMetadata) :
    NodeStatus × NodeMetadata :=
  if b.initialized = false then (.error, m)
  else if checkConds b.preconds = false then (.skipped, m)
  else (tickStatus b, m.update_tick_stats (tickStatus b))

/-- C2, counterexample: the claim asserts that a non-terminal `_tick` result
such as RUNNING is returned unchanged without consulting postconditions.
In the code the postcondition check is unconditional: an initialized node
whose `_tick` returns RUNNING and whose single postcondition returns false
ticks to FAILURE, not RUNNING. -/
theorem c2_counterexample :
    (nodeTick ⟨true, [], [some false], some NodeStatus.running⟩
        NodeMetadata.init).1 = NodeStatus.failure
    ∧ (nodeTick ⟨true, [], [some false], some NodeStatus.running⟩
        NodeMetadata.init).1 ≠ NodeStatus.running := by
  decide

/-- C2, amended: whenever `_tick` returns normally (with any status,
terminal or not), the postconditions are evaluated; if they all hold the
`_tick` status is returned unchanged, and any false or throwing
postcondition forces the returned status to FAILURE.  Only a raising
`_tick` (status ERROR) bypasses the postcondition check. -/
theorem c2_spec (b : TickBehavior) (m : NodeMetadata) (s : NodeStatus)
    (hinit : b.initialized = true)
    (hpre : checkConds b.preconds = true)
    (hres : b.tickResult = some s) :
    (nodeTick b m).1 = (if checkConds b.postconds then s else .failure) := by
  unfold nodeTick tickStatus
  rw [hinit, hpre, hres]
  simp

/-- Witness for `c2_spec` at a concrete input. -/
theorem c2_witness :
    ((⟨true, [some true], [some true], some NodeStatus.running⟩ :
        TickBehavior).initialized = true
      ∧ checkConds (⟨true, [some true], [some true], some NodeStatus.running⟩ :
          TickBehavior).preconds = true
      ∧ (⟨true, [some true], [some true], some NodeStatus.running⟩ :
          TickBehavior).tickResult = some NodeStatus.running)
    ∧ (nodeTick ⟨true, [some true], [some true], some NodeStatus.running⟩
        NodeMetadata.init).1
      = (if checkConds (⟨true, [some true], [some true],
            some NodeStatus.running⟩ : TickBehavior).postconds
          then NodeStatus.running else NodeStatus.failure) :=
  ⟨⟨rfl, rfl, rfl⟩,
    c2_spec ⟨true, [some true], [some true], some NodeStatus.running⟩
      NodeMetadata.init NodeStatus.running rfl rfl rfl⟩

/-- A tick reaches the timed `try/finally` region (and hence
`update_tick_stats`) iff the node is initialized and all preconditions
pass. -/
def isRecorded (b : TickBehavior) : Bool :=
  b.initialized && checkConds b.preconds

/-- The statuses for which `update_tick_stats` has a dedicated counter. -/
def countsToward : NodeStatus → Bool
  | .success => true
  | .failure => true
  | .error => true
  | _ => false

/-- Metadata evolution of one node across a sequence of `tick()` calls. -/
def runTicks : List TickBehavior → NodeMetadata → NodeMetadata
  | [], m => m
  | b :: rest, m => runTicks rest (nodeTick b m).2

/-- Number of ticks that update the statistics with a status that has no
dedicated counter (RUNNING, SKIPPED or INVALID out of `_tick`). -/
def otherTicks (bs : List TickBehavior) : Nat :=
  (bs.filter (fun b => isRecorded b && !countsToward (tickStatus b))).length

theorem nodeTick_meta (b : TickBehavior) (m : NodeMetadata) :
    (nodeTick b m).2 =
      if isRecorded b then m.update_tick_stats (tickStatus b) else m := by
  unfold nodeTick isRecorded
  by_cases h1 : b.initialized <;> by_cases h2 : checkConds b.preconds <;>
    simp [h1, h2]

theorem sum_update_tick_stats (m : NodeMetadata) (s : NodeStatus) :
    (m.update_tick_stats s).success_count + (m.update_tick_stats s).failure_count
      + (m.update_tick_stats s).error_count
    = m.success_count + m.failure_count + m.error_count
      + (if countsToward s then 1 else 0) := by
  cases s <;> simp [NodeMetadata.update_tick_stats, countsToward] <;> omega

theorem runTicks_total : ∀ (bs : List TickBehavior) (m : NodeMetadata),
    (runTicks bs m).total_ticks =
      m.total_ticks + (bs.filter isRecorded).length := by
  intro bs
  induction bs with
  | nil => intro m; simp [runTicks]
  | cons b rest ih =>
    intro m
    rw [runTicks, ih, nodeTick_meta]
    by_cases hb : isRecorded b <;>
      simp [hb, List.filter_cons, NodeMetadata.update_tick_stats] <;> omega

theorem runTicks_sum : ∀ (bs : List TickBehavior) (m : NodeMetadata),
    (runTicks bs m).success_count + (runTicks bs m).failure_count
      + (runTicks bs m).error_count
    = m.success_count + m.failure_count + m.error_count
      + (bs.filter (fun b => isRecorded b && countsToward (tickStatus b))).length := by
  intro bs
  induction bs with
  | nil => intro m; simp [runTicks]
  | cons b rest ih =>
    intro m
    rw [runTicks, ih, nodeTick_meta]
    by_cases hb : isRecorded b
    · rw [if_pos hb, sum_update_tick_stats]
      by_cases hc : countsToward (tickStatus b) <;>
        simp [hb, hc, List.filter_cons] <;> omega
    · simp [hb, List.filter_cons]

theorem filter_length_split (bs : List TickBehavior) :
    (bs.filter isRecorded).length =
      (bs.filter (fun b => isRecorded b && countsToward (tickStatus b))).length
      + (bs.filter (fun b => isRecorded b && !countsToward (tickStatus b))).length := by
  induction bs with
  | nil => rfl
  | cons b rest ih =>
    by_cases hb : isRecorded b
    · by_cases hc : countsToward (tickStatus b) <;>
        simp [hb, hc, List.filter_cons] <;> omega
    · simp [hb, List.filter_cons, ih]

/-- C9, counterexample: `NodeMetadata` has only `success_count`,
`failure_count` and `error_count`; a single tick whose `_tick` returns
RUNNING increments `total_ticks` but no per-status counter, so
`total_ticks` exceeds the sum of every per-status counter the code
maintains (the claimed `running_count`, `skipped_count`, `invalid_count`
do not exist). -/
theorem c9_counterexample :
    (runTicks [⟨true, [], [], some NodeStatus.running⟩]
        NodeMetadata.init).total_ticks = 1
    ∧ (runTicks [⟨true, [], [], some NodeStatus.running⟩]
          NodeMetadata.init).success_count
      + (runTicks [⟨true, [], [], some NodeStatus.running⟩]
          NodeMetadata.init).failure_count
      + (runTicks [⟨true, [], [], some NodeStatus.running⟩]
          NodeMetadata.init).error_count = 0
    ∧ (1 : Nat) ≠ 0 := by
  decide

/-- C9, amended: after any sequence of `tick()` calls starting from fresh
metadata, `total_ticks` equals `success_count + failure_count + error_count`
plus the number of recorded ticks whose status was RUNNING, SKIPPED or
INVALID; the code keeps no counters for those statuses (and ticks rejected
before the stats block — uninitialized or precondition-skipped — are not
counted at all). -/
theorem c9_spec (bs : List TickBehavior) :
    (runTicks bs NodeMetadata.init).total_ticks =
      (runTicks bs NodeMetadata.init).success_count
      + (runTicks bs NodeMetadata.init).failure_count
      + (runTicks bs NodeMetadata.init).error_count
      + otherTicks bs := by
  have h1 := runTicks_total bs NodeMetadata.init
  have h2 := runTicks_sum bs NodeMetadata.init
  have h3 := filter_length_split bs
  unfold otherTicks
  simp only [NodeMetadata.init] at h1 h2 ⊢
  omega

/-! ## RetryNode (`nodes/decorators.py`)

`RetryNode._tick` loops `while self._attempt < self.max_attempts`, ticking
the child, incrementing `_attempt` on FAILURE, computing
`_calculate_delay()` and sleeping when the delay is positive — including
after the final failed attempt, since the sleep precedes the loop-condition
re-check.  The claims concern a child that always returns FAILURE, so one
`_tick` is modelled as the number of child invocations plus the list of
sleep durations, in order. -/

/-- `RetryNode._calculate_delay` with `jitter` left at its default `0` (the
claim's configuration sets only `delay` and `exponential_backoff`), so the
random jitter term is never added. `attempt` is `self._attempt` at call
time. -/
def retryCalcDelay (base : ℚ) (eb : Bool) (attempt : Nat) : ℚ :=
  if base ≤ 0 then 0
  else if eb then base * 2 ^ attempt else base

/-- The retry loop against an always-failing child: `fuel` is the number of
remaining iterations `max_attempts - _attempt`, `attempt` is `self._attempt`.
Returns (number of child invocations, sleeps performed in order). -/
def retryLoopFail (base : ℚ) (eb : Bool) : Nat → Nat → Nat × List ℚ
  | 0, _ => (0, [])
  | fuel + 1, attempt =>
    let d := retryCalcDelay base eb (attempt + 1)
    let tail := retryLoopFail base eb fuel (attempt + 1)
    (tail.1 + 1, (if 0 < d then [d] else []) ++ tail.2)

/-- `RetryNode._tick` for a node with an always-failing child: runs the loop
from `_attempt = 0`, then resets `_attempt` and returns FAILURE.  Result is
(returned status, child invocations, sleeps in order). -/
def retryTickFail (base : ℚ) (eb : Bool) (maxAttempts : Nat) :
    NodeStatus × Nat × List ℚ :=
  let p := retryLoopFail base eb maxAttempts 0
  (.failure, p.1, p.2)

theorem retryLoopFail_expBackoff (d : ℚ) (hd : 0 < d) :
    ∀ (fuel a : Nat),
      retryLoopFail d true fuel a
        = (fuel, (List.range fuel).map (fun k => d * 2 ^ (a + 1 + k))) := by
  intro fuel
  induction fuel with
  | zero => intro a; rfl
  | succ fuel ih =>
    intro a
    have hcalc : retryCalcDelay d true (a + 1) = d * 2 ^ (a + 1) := by
      unfold retryCalcDelay
      rw [if_neg (not_le.mpr hd), if_pos rfl]
    have hpos : 0 < d * 2 ^ (a + 1) := by positivity
    simp only [retryLoopFail, hcalc, ih (a + 1), if_pos hpos, Prod.mk.injEq]
    refine ⟨trivial, ?_⟩
    rw [List.range_succ_eq_map]
    have hexp : ∀ k : Nat, a + 1 + 1 + k = a + 1 + (k + 1) := by omega
    simp [List.map_map, Function.comp, hexp]

/-- C3, counterexample: the claim says that with `delay=1`,
`exponential_backoff=true` and `max_attempts=2` over an always-failing
child, the only wait is `d = 1` between the two attempts.  The code sleeps
`2·d` after the first failure and `4·d` after the second (a sleep also
follows the final attempt), so the sleep schedule is `[2, 4]`, not `[1]`. -/
theorem c3_counterexample :
    (retryTickFail 1 true 2).2.2 = [(2 : ℚ), 4]
    ∧ (retryTickFail 1 true 2).2.2 ≠ [(1 : ℚ)]
    ∧ (retryTickFail 1 true 2).2.1 = 2 := by
  have h : retryTickFail 1 true 2 = (.failure, 2, [(2 : ℚ), 4]) := by
    unfold retryTickFail
    rw [retryLoopFail_expBackoff 1 (by norm_num) 2 0]
    norm_num [List.range_succ]
  refine ⟨by rw [h], by rw [h]; norm_num, by rw [h]⟩

/-- C3, amended: for a RetryNode with `delay = d > 0`,
`exponential_backoff = true` and `max_attempts = N` over an always-failing
child, one tick invokes the child exactly N times and returns FAILURE, but
the waits are `2d, 4d, …, 2^N·d` — the exponent is the already-incremented
attempt counter, so the first wait is `2d`, and a sleep also occurs after
the final attempt (N sleeps in total, not N−1). -/
theorem c3_spec (d : ℚ) (N : Nat) (hd : 0 < d) :
    retryTickFail d true N
      = (.failure, N, (List.range N).map (fun k => d * 2 ^ (k + 1))) := by
  unfold retryTickFail
  rw [retryLoopFail_expBackoff d hd N 0]
  have hexp : ∀ k : Nat, 0 + 1 + k = k + 1 := by omega
  simp [hexp]

/-- Witness for `c3_spec` at a concrete input. -/
theorem c3_witness :
    (0 : ℚ) < 1
    ∧ retryTickFail 1 true 3
      = (.failure, 3, (List.range 3).map (fun k => (1 : ℚ) * 2 ^ (k + 1))) :=
  ⟨by norm_num, c3_spec 1 3 (by norm_num)⟩

/-! ## ParallelNode (`nodes/composites.py`)

One `ParallelNode._tick` is modelled by the list of (path, status) pairs
its children would report this tick, the `synchronized` flag, and the
`self.child_status` map carried over from previous ticks (a Python dict,
modelled as an insertion-ordered association list). -/

/-- Parallel reduction policies (`ParallelPolicy` in `nodes/composites.py`). -/
inductive ParallelPolicy where
  | requireAll
  | requireOne
  | sequenceStar
  | selectorStar
deriving DecidableEq, Repr

/-- Python dict assignment `d[k] = v`: overwrite in place preserving the
key's insertion position, appending a new key at the end. -/
def assocSet {α : Type} : List (String × α) → String → α → List (String × α)
  | [], k, v => [(k, v)]
  | (k0, v0) :: rest, k, v =>
    if k0 = k then (k, v) :: rest else (k0, v0) :: assocSet rest k v

/-- Number of entries of the status map holding a given status. -/
def countStatus (m : List (String × NodeStatus)) (s : NodeStatus) : Nat :=
  (m.filter (fun p => p.2 = s)).length

/-- `ParallelNode._evaluate_results`: INVALID on an empty map; thresholds
(Python-truthy, so `None` and `0` are both ignored) checked success-first;
then the policy reduction. -/
def evaluateResults (policy : ParallelPolicy) (st ft : Option Nat)
    (numChildren : Nat) (m : List (String × NodeStatus)) : NodeStatus :=
  if m.isEmpty then .invalid
  else
    let s := countStatus m .success
    let f := countStatus m .failure
    let r := countStatus m .running
    if st.getD 0 ≠ 0 ∧ s ≥ st.getD 0 then .success
    else if ft.getD 0 ≠ 0 ∧ f ≥ ft.getD 0 then .failure
    else
      match policy with
      | .requireAll =>
        if f > 0 then .failure else if r > 0 then .running else .success
      | .requireOne =>
        if s > 0 then .success else if r > 0 then .running else .failure
      | .sequenceStar =>
        if r > 0 then .running
        else if s = numChildren then .success else .failure
      | .selectorStar =>
        if r > 0 then .running
        else if s > 0 then .success else .failure

/-- Observable outcome of one `ParallelNode._tick`. -/
structure ParallelResult where
  status : NodeStatus
  tickedPaths : List String
  childStatus : List (String × NodeStatus)
deriving DecidableEq, Repr

/-- `ParallelNode._tick`: empty children return SUCCESS untouched; when
`synchronized` the status map is cleared first; a child is scheduled when
`not synchronized or path not in child_status` (checked against the map
after the clear); each scheduled child's tick result is stored in the map. -/
def parallelTick (children : List (String × NodeStatus))
    (policy : ParallelPolicy) (st ft : Option Nat) (sync : Bool)
    (map0 : List (String × NodeStatus)) : ParallelResult :=
  if children.isEmpty then ⟨.success, [], map0⟩
  else
    let m1 := if sync then [] else map0
    let ticked := children.filter (fun c => !sync || (m1.lookup c.1).isNone)
    let m2 := ticked.foldl (fun m c => assocSet m c.1 c.2) m1
    ⟨evaluateResults policy st ft children.length m2, ticked.map Prod.fst, m2⟩

/-- C4, counterexample: the claim says that with `synchronized = true` a
child that already reported a terminal status is not re-ticked and the map
is retained.  In the code `synchronized = true` clears the map at the start
of every tick, so a child with a recorded SUCCESS is ticked again. -/
theorem c4_counterexample :
    (parallelTick [("a", NodeStatus.success)] .requireAll none none true
        [("a", NodeStatus.success)]).tickedPaths = ["a"]
    ∧ (parallelTick [("a", NodeStatus.success)] .requireAll none none true
        [("a", NodeStatus.success)]).tickedPaths ≠ ([] : List String) := by
  decide

/-- C4, amended: the `synchronized` flag acts opposite to the claim — with
`synchronized = true` the per-child status map is cleared at the start of
every tick, and with `synchronized = false` it is retained; in both modes
every child of a non-empty ParallelNode is re-ticked on every tick (the
skip condition can only trigger when `synchronized` is true, by which time
the map has just been cleared), and the resulting map is the (cleared or
retained) map overwritten with this tick's result of every child. -/
theorem c4_spec (children : List (String × NodeStatus))
    (policy : ParallelPolicy) (st ft : Option Nat) (sync : Bool)
    (map0 : List (String × NodeStatus)) (h : children ≠ []) :
    (parallelTick children policy st ft sync map0).tickedPaths
      = children.map Prod.fst
    ∧ (parallelTick children policy st ft sync map0).childStatus
      = children.foldl (fun m c => assocSet m c.1 c.2)
          (if sync then [] else map0) := by
  have hne : children.isEmpty = false := by
    cases children with
    | nil => exact absurd rfl h
    | cons c rest => rfl
  have hfilter :
      children.filter
        (fun c => !sync || ((if sync then [] else map0).lookup c.1).isNone)
      = children := by
    apply List.filter_eq_self.mpr
    intro c _
    cases sync <;> simp [List.lookup]
  unfold parallelTick
  simp only [hne, Bool.false_eq_true, if_false, hfilter]
  exact ⟨trivial, trivial⟩

/-- Witness for `c4_spec` at a concrete input. -/
theorem c4_witness :
    ([("a", NodeStatus.success), ("b", NodeStatus.running)] :
        List (String × NodeStatus)) ≠ []
    ∧ ((parallelTick [("a", NodeStatus.success), ("b", NodeStatus.running)]
          .requireOne none none true [("a", NodeStatus.failure)]).tickedPaths
        = [("a", NodeStatus.success), ("b", NodeStatus.running)].map Prod.fst
      ∧ (parallelTick [("a", NodeStatus.success), ("b", NodeStatus.running)]
          .requireOne none none true [("a", NodeStatus.failure)]).childStatus
        = [("a", NodeStatus.success), ("b", NodeStatus.running)].foldl
            (fun m c => assocSet m c.1 c.2)
            (if true then [] else [("a", NodeStatus.failure)])) :=
  ⟨by simp,
    c4_spec [("a", NodeStatus.success), ("b", NodeStatus.running)]
      .requireOne none none true [("a", NodeStatus.failure)] (by simp)⟩

/-! ## ActionNode (`nodes/leaves.py`)

The callback's Python return value is modelled by `PyValue`; values other
than `ActionResult`, `bool` and `None` are represented by integer and
string constructors (their identity is irrelevant to the dispatch, which
only tests `isinstance(result, (ActionResult, bool)) or result is None`). -/

/-- `ActionResult` enum in `nodes/leaves.py`. -/
inductive ActionResult where
  | success
  | failure
  | running
  | error
  | cancelled
deriving DecidableEq, Repr

/-- A Python value returned by an action callback. -/
inductive PyValue where
  | vResult (r : ActionResult)
  | vBool (b : Bool)
  | vNone
  | vInt (n : Int)
  | vStr (s : String)
deriving DecidableEq, Repr

/-- The `isinstance(result, (ActionResult, bool)) or result is None` test in
`ActionNode._execute_action`. -/
def isRecognizedResult : PyValue → Bool
  | .vResult _ => true
  | .vBool _ => true
  | .vNone => true
  | _ => false

/-- `action_result_to_status` in `nodes/leaves.py`, extended to arbitrary
values exactly as the Python function behaves when handed one: the final
`else` branch maps any unrecognized value to FAILURE. -/
def actionResultToStatus : PyValue → NodeStatus
  | .vResult .success => .success
  | .vResult .failure => .failure
  | .vResult .running => .running
  | .vResult .error => .failure
  | .vResult .cancelled => .failure
  | .vBool true => .success
  | .vBool false => .failure
  | .vNone => .success
  | _ => .failure

/-- `ActionNode._execute_action` for a callback that returns `v` without
raising: recognized values are returned as-is, anything else is coerced to
`ActionResult.SUCCESS`. -/
def executeAction (v : PyValue) : PyValue :=
  if isRecognizedResult v then v else .vResult .success

/-- The retry loop of `ActionNode._tick` (no timeout, no pending cancel,
callback deterministically returning `v`): `fuel` counts the remaining
iterations of `while self._current_retry <= self.retry_count` and `cur` is
`self._current_retry`.  Falling out of the loop returns FAILURE. -/
def actionTickLoop (v : PyValue) (retry_count : Nat) :
    Nat → Nat → NodeStatus
  | 0, _ => .failure
  | fuel + 1, cur =>
    let result := executeAction v
    if result = .vResult .success ∨ result = .vResult .running then
      actionResultToStatus result
    else if result = .vResult .failure ∧ cur < retry_count then
      actionTickLoop v retry_count fuel (cur + 1)
    else actionResultToStatus result

/-- `ActionNode._tick` for a callback returning `v`: the loop runs at most
`retry_count + 1` times starting from `_current_retry = 0`. -/
def actionTick (v : PyValue) (retry_count : Nat) : NodeStatus :=
  actionTickLoop v retry_count (retry_count + 1) 0

/-- The status mapping as amended: identical to the claim except that an
unrecognized return value is coerced to SUCCESS. -/
def actionSpecMap : PyValue → NodeStatus
  | .vResult .success => .success
  | .vResult .failure => .failure
  | .vResult .running => .running
  | .vResult .error => .failure
  | .vResult .cancelled => .failure
  | .vBool true => .success
  | .vBool false => .failure
  | .vNone => .success
  | _ => .success

theorem actionTickLoop_failure (retry_count : Nat) :
    ∀ (fuel cur : Nat), 0 < fuel →
      actionTickLoop (.vResult .failure) retry_count fuel cur
        = .failure := by
  intro fuel
  induction fuel with
  | zero => intro cur h; omega
  | succ fuel ih =>
    intro cur _
    unfold actionTickLoop
    simp only [executeAction, isRecognizedResult, if_pos]
    by_cases hc : cur < retry_count
    · have hfuel : 0 < fuel ∨ fuel = 0 := by omega
      rcases hfuel with hf | rfl
      · simp [hc, ih (cur + 1) hf]
      · simp [hc, actionTickLoop]
    · simp [hc, actionResultToStatus]

/-- C5, counterexample: the claim says a callback return value that is
neither an `ActionResult`, a boolean nor `None` maps to FAILURE.  A
callback returning the integer `42` is coerced by `_execute_action` to
`ActionResult.SUCCESS`, so the tick returns SUCCESS. -/
theorem c5_counterexample :
    actionTick (.vInt 42) 0 = NodeStatus.success
    ∧ actionTick (.vInt 42) 0 ≠ NodeStatus.failure := by
  decide

/-- C5, amended: the callback's return value maps to the node status as:
an `ActionResult` tag maps 1:1 with ERROR and CANCELLED becoming FAILURE;
a boolean maps to SUCCESS/FAILURE; `None` maps to SUCCESS; and any other
return value maps to SUCCESS, because `_execute_action` coerces
unrecognized results to `ActionResult.SUCCESS` before conversion — the
FAILURE fallback of `action_result_to_status` is unreachable from
`ActionNode._tick`, as witnessed by the second conjunct. -/
theorem c5_spec (v : PyValue) (retry_count : Nat) :
    actionTick v retry_count = actionSpecMap v
    ∧ actionResultToStatus (.vInt 42) = NodeStatus.failure := by
  refine ⟨?_, rfl⟩
  match v with
  | .vResult .failure =>
    exact actionTickLoop_failure retry_count (retry_count + 1) 0 (by omega)
  | .vResult .success => rfl
  | .vResult .running => rfl
  | .vResult .error => rfl
  | .vResult .cancelled => rfl
  | .vBool true => rfl
  | .vBool false =>
    unfold actionTick actionTickLoop
    simp [executeAction, isRecognizedResult, actionResultToStatus, actionSpecMap]
  | .vNone => rfl
  | .vInt n => rfl
  | .vStr s => rfl

/-! ## Blackboard (`core/blackboard.py`)

The blackboard maps namespaces to key/entry dicts.  Python dicts are
modelled as insertion-ordered association lists (`assocSet` above is dict
assignment).  Values are modelled by a JSON-style value type (the claims
concern JSON-serializable contents); `datetime` timestamps are modelled by
an abstract counter, with `isoformat`/`fromisoformat` — which are mutually
inverse — modelled as carrying the counter through the saved state.
Locks, the subscriber callbacks and the activity log mutate nothing the
claims mention and are elided. -/

/-- A JSON-serializable value stored in the blackboard. -/
inductive JValue where
  | jNull
  | jBool (b : Bool)
  | jInt (n : Int)
  | jStr (s : String)
deriving DecidableEq, Repr

/-- `BlackboardEntry` dataclass; `nspace` is the Python `namespace` field. -/
structure BlackboardEntry where
  value : JValue
  timestamp : Nat
  nspace : String
  access_count : Nat
  last_modified_by : Option String
deriving DecidableEq, Repr

/-- Errors raised by the embedded Python code. -/
inductive PyErr where
  | keyErr (msg : String)
  | attributeErr (attr : String)
deriving DecidableEq, Repr

/-- Blackboard state: `_data`, namespace → (key → entry). -/
structure Blackboard where
  data : List (String × List (String × BlackboardEntry))
deriving DecidableEq, Repr

/-- `Blackboard.__init__`: starts with the auto-created `default`
namespace. -/
def Blackboard.init : Blackboard := ⟨[("default", [])]⟩

/-- `Blackboard.create_namespace`: inserts an empty namespace at the end of
the dict when absent, otherwise leaves the blackboard unchanged. -/
def Blackboard.create_namespace (bb : Blackboard) (ns : String) : Blackboard :=
  if (bb.data.lookup ns).isSome then bb else ⟨bb.data ++ [(ns, [])]⟩

/-- Applies `f` to the entry dict of namespace `ns`, in place
(`self._data[namespace]` mutation); no-op when the namespace is absent. -/
def setNsData :
    List (String × List (String × BlackboardEntry)) → String →
    (List (String × BlackboardEntry) → List (String × BlackboardEntry)) →
    List (String × List (String × BlackboardEntry))
  | [], _, _ => []
  | (n, es) :: rest, ns, f =>
    if n = ns then (n, f es) :: rest else (n, es) :: setNsData rest ns f

/-- `Blackboard.set`: auto-creates the namespace, then stores a brand-new
entry (fresh `access_count = 0`) under the key.  `now` stands for
`datetime.now()`. -/
def Blackboard.set (bb : Blackboard) (key : String) (v : JValue) (ns : String)
    (client : Option String) (now : Nat) : Blackboard :=
  let bb1 := bb.create_namespace ns
  ⟨setNsData bb1.data ns (fun es => assocSet es key ⟨v, now, ns, 0, client⟩)⟩

/-- `Blackboard.get`: raises `KeyError` when the namespace is missing;
otherwise returns `None` for a missing key, or the value while bumping the
entry's `access_count`. -/
def Blackboard.get (bb : Blackboard) (key ns : String) :
    Except PyErr (Option JValue × Blackboard) :=
  match bb.data.lookup ns with
  | none => .error (.keyErr ns)
  | some es =>
    match es.lookup key with
    | none => .ok (none, bb)
    | some e =>
      .ok (some e.value,
        ⟨setNsData bb.data ns
          (fun es0 => assocSet es0 key
            { e with access_count := e.access_count + 1 })⟩)

/-- Whether an embedded call raised an exception. -/
def isRaise {α : Type} : Except PyErr α → Bool
  | .error _ => true
  | .ok _ => false

/-- C7: `Blackboard.get(key, namespace)` raises if and only if the
namespace does not exist in `_data`, and the exception is the not-found
`KeyError` naming the namespace; when the namespace exists the call
returns normally for every key. -/
theorem c7_spec (bb : Blackboard) (key ns : String) :
    (isRaise (bb.get key ns) = true ↔ bb.data.lookup ns = none)
    ∧ (bb.data.lookup ns = none →
        bb.get key ns = .error (.keyErr ns)) := by
  unfold Blackboard.get
  cases hns : bb.data.lookup ns with
  | none => simp [isRaise]
  | some es =>
    cases hk : es.lookup key with
    | none => simp [isRaise, hk]
    | some e => simp [isRaise, hk]

/-- Witness for `c7_spec` at a concrete input: the fresh blackboard has
only the `default` namespace, so `get` on namespace `ghosts` raises. -/
theorem c7_witness :
    ((isRaise (Blackboard.init.get "hp" "ghosts") = true
        ↔ Blackboard.init.data.lookup "ghosts" = none)
      ∧ (Blackboard.init.data.lookup "ghosts" = none →
          Blackboard.init.get "hp" "ghosts" = .error (.keyErr "ghosts")))
    ∧ Blackboard.init.data.lookup "ghosts" = none
    ∧ Blackboard.init.get "hp" "ghosts" = .error (.keyErr "ghosts") :=
  have h := c7_spec Blackboard.init "hp" "ghosts"
  have hnone : Blackboard.init.data.lookup "ghosts" = none := by decide
  ⟨h, hnone, h.2 hnone⟩

/-! ## Blackboard persistence (`save_state` / `load_state`) -/

/-- One serialized entry of `save_state`: `{value, timestamp(ISO8601),
access_count, last_modified_by}`.  The ISO8601 string is modelled by the
timestamp counter it encodes (`datetime.isoformat` and
`datetime.fromisoformat` are mutually inverse). -/
structure SavedEntry where
  value : JValue
  timestamp : Nat
  access_count : Nat
  last_modified_by : Option String
deriving DecidableEq, Repr

/-- The JSON-shaped document written by `save_state`. -/
abbrev SavedState := List (String × List (String × SavedEntry))

/-- Serialization of one entry in `Blackboard.save_state`. -/
def saveEntry (e : BlackboardEntry) : SavedEntry :=
  ⟨e.value, e.timestamp, e.access_count, e.last_modified_by⟩

/-- `Blackboard.save_state`: the whole `_data` mapping, entry by entry. -/
def Blackboard.save_state (bb : Blackboard) : SavedState :=
  bb.data.map (fun p => (p.1, p.2.map (fun q => (q.1, saveEntry q.2))))

/-- The `BlackboardEntry(...)` reconstructed by `load_state` for namespace
`ns`: all serialized fields are restored verbatim. -/
def loadEntry (ns : String) (se : SavedEntry) : BlackboardEntry :=
  ⟨se.value, se.timestamp, ns, se.access_count, se.last_modified_by⟩

/-- Inner loop of `load_state`: `self._data[namespace][key] =
BlackboardEntry(...)` for each serialized key of one namespace. -/
def loadNsEntries (ns : String) :
    Blackboard → List (String × SavedEntry) → Blackboard
  | b, [] => b
  | b, q :: rest =>
    loadNsEntries ns
      ⟨setNsData b.data ns (fun es => assocSet es q.1 (loadEntry ns q.2))⟩ rest

/-- Outer loop of `load_state`: for each namespace of the document,
`create_namespace` then restore its entries. -/
def loadStateLoop : Blackboard → SavedState → Blackboard
  | b, [] => b
  | b, p :: rest =>
    loadStateLoop (loadNsEntries p.1 (b.create_namespace p.1) p.2) rest

/-- `Blackboard.load_state`. -/
def Blackboard.load_state (bb : Blackboard) (st : SavedState) : Blackboard :=
  loadStateLoop bb st

/-- The observable content of one blackboard slot: value, `access_count`
and `last_modified_by` of the entry under (namespace, key), when present. -/
def entryView (bb : Blackboard) (ns key : String) :
    Option (JValue × Nat × Option String) :=
  ((bb.data.lookup ns).bind (fun es => es.lookup key)).map
    (fun e => (e.value, e.access_count, e.last_modified_by))

/-- The namespace names of `_data` are distinct (a Python dict
invariant). -/
def nsKeysNodup (bb : Blackboard) : Prop := (bb.data.map Prod.fst).Nodup

/-- Within each namespace the keys are distinct (a Python dict
invariant). -/
def entryKeysNodup (bb : Blackboard) : Prop :=
  ∀ p ∈ bb.data, (p.2.map Prod.fst).Nodup

theorem lookup_assocSet {α : Type} (k : String) (v : α) :
    ∀ (es : List (String × α)) (k' : String),
      (assocSet es k v).lookup k' = if k' = k then some v else es.lookup k' := by
  intro es
  induction es with
  | nil =>
    intro k'
    by_cases h : k' = k
    · simp [assocSet, List.lookup_cons, h]
    · have hb : (k' == k) = false := by simp [h]
      simp [assocSet, List.lookup_cons, hb, h]
  | cons p rest ih =>
    intro k'
    obtain ⟨k0, v0⟩ := p
    by_cases h0 : k0 = k
    · by_cases h : k' = k
      · simp [assocSet, h0, List.lookup_cons, h]
      · have hb : (k' == k) = false := by simp [h]
        have hb0 : (k' == k0) = false := by rw [h0]; exact hb
        simp [assocSet, h0, List.lookup_cons, hb, hb0, h]
    · by_cases h : k' = k0
      · have hne : ¬(k' = k) := by rw [h]; exact h0
        simp [assocSet, h0, List.lookup_cons, h, hne]
      · have hb0 : (k' == k0) = false := by simp [h]
        simp [assocSet, h0, List.lookup_cons, hb0, ih k']

theorem lookup_setNsData (ns : String)
    (f : List (String × BlackboardEntry) → List (String × BlackboardEntry)) :
    ∀ (data : List (String × List (String × BlackboardEntry))) (ns' : String),
      (setNsData data ns f).lookup ns' =
        if ns' = ns then (data.lookup ns').map f else data.lookup ns' := by
  intro data
  induction data with
  | nil => intro ns'; simp [setNsData]
  | cons p rest ih =>
    intro ns'
    obtain ⟨n0, es0⟩ := p
    by_cases h0 : n0 = ns
    · subst h0
      by_cases h : ns' = n0
      · simp [setNsData, List.lookup_cons, h]
      · have hb : (ns' == n0) = false := by simp [h]
        simp [setNsData, List.lookup_cons, hb, h]
    · by_cases h : ns' = n0
      · subst h
        have hne : ¬(ns' = ns) := fun hc => h0 (hc ▸ rfl)
        simp [setNsData, h0, List.lookup_cons, hne]
      · have hb : (ns' == n0) = false := by simp [h]
        simp [setNsData, h0, List.lookup_cons, hb, ih ns']

theorem lookup_append_single {α : Type} (ns : String) (x : α) :
    ∀ (l : List (String × α)) (ns' : String),
      (l ++ [(ns, x)]).lookup ns' =
        match l.lookup ns' with
        | some v => some v
        | none => if ns' = ns then some x else none := by
  intro l
  induction l with
  | nil =>
    intro ns'
    by_cases h : ns' = ns
    · simp [List.lookup_cons, h]
    · have hb : (ns' == ns) = false := by simp [h]
      simp [List.lookup_cons, hb, h]
  | cons p rest ih =>
    intro ns'
    obtain ⟨n0, v0⟩ := p
    by_cases h : ns' = n0
    · simp [List.lookup_cons, h]
    · have hb : (ns' == n0) = false := by simp [h]
      simp [List.lookup_cons, hb, ih ns']

theorem lookup_create (bb : Blackboard) (ns ns' : String) :
    (bb.create_namespace ns).data.lookup ns' =
      if ns' = ns then some ((bb.data.lookup ns).getD [])
      else bb.data.lookup ns' := by
  unfold Blackboard.create_namespace
  cases hs : bb.data.lookup ns with
  | some es =>
    simp only [hs, Option.isSome_some, if_pos]
    by_cases h : ns' = ns
    · subst h; simp [hs]
    · simp [h]
  | none =>
    simp only [hs, Option.isSome_none, Bool.false_eq_true, if_false]
    rw [lookup_append_single]
    by_cases h : ns' = ns
    · subst h; simp [hs]
    · cases hv : bb.data.lookup ns' <;> simp [h]

theorem lookup_eq_none_of_not_mem {α : Type} (k : String) :
    ∀ (l : List (String × α)), k ∉ l.map Prod.fst → l.lookup k = none := by
  intro l
  induction l with
  | nil => intro _; rfl
  | cons p rest ih =>
    intro h
    obtain ⟨k0, v0⟩ := p
    simp only [List.map_cons, List.mem_cons] at h
    push_neg at h
    have hb : (k == k0) = false := by simp [h.1]
    simp [List.lookup_cons, hb, ih h.2]

theorem lookup_map_snd {α β : Type} (g : α → β) :
    ∀ (l : List (String × α)) (a : String),
      (l.map (fun p => (p.1, g p.2))).lookup a = (l.lookup a).map g := by
  intro l
  induction l with
  | nil => intro a; rfl
  | cons p rest ih =>
    intro a
    obtain ⟨k0, v0⟩ := p
    by_cases h : a = k0
    · simp [List.lookup_cons, h]
    · have hb : (a == k0) = false := by simp [h]
      simp [List.lookup_cons, hb, ih a]

theorem lookup_loadNsEntries_other (ns ns' : String) (h : ns' ≠ ns) :
    ∀ (entries : List (String × SavedEntry)) (b : Blackboard),
      (loadNsEntries ns b entries).data.lookup ns' = b.data.lookup ns' := by
  intro entries
  induction entries with
  | nil => intro b; rfl
  | cons q rest ih =>
    intro b
    rw [loadNsEntries, ih]
    simp [lookup_setNsData, h]

theorem loadNsEntries_view (ns : String) :
    ∀ (entries : List (String × SavedEntry)) (b : Blackboard) (key : String),
      (entries.map Prod.fst).Nodup →
      (b.data.lookup ns).isSome = true →
      ((loadNsEntries ns b entries).data.lookup ns).bind
          (fun es => es.lookup key)
        = match entries.lookup key with
          | some se => some (loadEntry ns se)
          | none => (b.data.lookup ns).bind (fun es => es.lookup key) := by
  intro entries
  induction entries with
  | nil => intro b key _ _; rfl
  | cons q rest ih =>
    intro b key hnd hsome
    obtain ⟨k0, se0⟩ := q
    obtain ⟨es, hes⟩ := Option.isSome_iff_exists.mp hsome
    simp only [List.map_cons, List.nodup_cons] at hnd
    rw [loadNsEntries]
    set b1 : Blackboard :=
      ⟨setNsData b.data ns (fun es => assocSet es k0 (loadEntry ns se0))⟩ with hb1
    have hb1ns : b1.data.lookup ns =
        some (assocSet es k0 (loadEntry ns se0)) := by
      rw [hb1]
      show (setNsData b.data ns _).lookup ns = _
      rw [lookup_setNsData, if_pos rfl, hes]
      rfl
    have hb1some : (b1.data.lookup ns).isSome = true := by
      rw [hb1ns]; rfl
    rw [ih b1 key hnd.2 hb1some]
    by_cases hk : key = k0
    · have hrest : rest.lookup key = none := by
        rw [hk]; exact lookup_eq_none_of_not_mem k0 rest hnd.1
      have hb : (key == k0) = true := by simp [hk]
      rw [hrest, hb1ns]
      simp only [List.lookup_cons, hb]
      simp [lookup_assocSet, hk]
    · have hb : (key == k0) = false := by simp [hk]
      cases hr : rest.lookup key with
      | some se => simp [List.lookup_cons, hb, hr]
      | none =>
        simp only [List.lookup_cons, hb, hr, hes, hb1ns]
        simp [lookup_assocSet, hk]

theorem loadStateLoop_view :
    ∀ (st : SavedState) (b : Blackboard),
      (st.map Prod.fst).Nodup →
      (∀ p ∈ st, (p.2.map Prod.fst).Nodup) →
      (∀ p ∈ st, (b.data.lookup p.1).getD [] = []) →
      ∀ ns key,
        entryView (loadStateLoop b st) ns key
          = match st.lookup ns with
            | some entries =>
              (entries.lookup key).map
                (fun se => (se.value, se.access_count, se.last_modified_by))
            | none => entryView b ns key := by
  intro st
  induction st with
  | nil => intro b _ _ _ ns key; rfl
  | cons p rest ih =>
    intro b h1 h2 h3 ns key
    obtain ⟨n0, es0⟩ := p
    simp only [List.map_cons, List.nodup_cons] at h1
    rw [loadStateLoop]
    set b1 : Blackboard := loadNsEntries n0 (b.create_namespace n0) es0 with hb1
    have hrest2 : ∀ p ∈ rest, (p.2.map Prod.fst).Nodup :=
      fun p hp => h2 p (List.mem_cons_of_mem _ hp)
    have hrest3 : ∀ p ∈ rest, (b1.data.lookup p.1).getD [] = [] := by
      intro p hp
      have hpn : p.1 ≠ n0 := by
        intro hc
        exact h1.1 (hc ▸ List.mem_map_of_mem Prod.fst hp)
      rw [hb1, lookup_loadNsEntries_other n0 p.1 hpn, lookup_create, if_neg hpn]
      exact h3 p (List.mem_cons_of_mem _ hp)
    rw [ih b1 h1.2 hrest2 hrest3 ns key]
    by_cases hns : ns = n0
    · subst hns
      have hrest : rest.lookup ns = none :=
        lookup_eq_none_of_not_mem ns rest h1.1
      have hcreate : ((b.create_namespace ns).data.lookup ns).isSome = true := by
        rw [lookup_create, if_pos rfl]; rfl
      have hcontent : (b.create_namespace ns).data.lookup ns = some [] := by
        rw [lookup_create, if_pos rfl, h3 (ns, es0) (List.mem_cons_self _ _)]
      rw [hrest]
      simp only [List.lookup_cons, beq_self_eq_true]
      unfold entryView
      rw [hb1, loadNsEntries_view ns es0 (b.create_namespace ns) key
        (h2 (ns, es0) (List.mem_cons_self _ _)) hcreate]
      cases hk : es0.lookup key with
      | some se => simp [hk, loadEntry]
      | none => simp [hk, hcontent]
    · have hb : (ns == n0) = false := by simp [hns]
      simp only [List.lookup_cons, hb]
      cases hr : rest.lookup ns with
      | some entries => simp [hr]
      | none =>
        simp only [hr]
        unfold entryView
        rw [hb1, lookup_loadNsEntries_other n0 ns hns, lookup_create, if_neg hns]

/-- C8: for a blackboard whose contents satisfy the dict key-uniqueness
invariants, `save_state` followed by `load_state` into a freshly
constructed blackboard reproduces every (namespace, key) slot: same value,
same `access_count`, same `last_modified_by` (timestamps round-tripped via
ISO8601, which is lossless). -/
theorem c8_spec (bb : Blackboard) (h1 : nsKeysNodup bb)
    (h2 : entryKeysNodup bb) (ns key : String) :
    entryView (Blackboard.init.load_state bb.save_state) ns key
      = entryView bb ns key := by
  unfold Blackboard.load_state
  have hnd : (bb.save_state.map Prod.fst).Nodup := by
    unfold Blackboard.save_state
    rw [List.map_map]
    exact h1
  have hinner : ∀ p ∈ bb.save_state, (p.2.map Prod.fst).Nodup := by
    intro p hp
    unfold Blackboard.save_state at hp
    obtain ⟨q, hq, rfl⟩ := List.mem_map.mp hp
    rw [List.map_map]
    exact h2 q hq
  have hempty : ∀ p ∈ bb.save_state,
      ((Blackboard.init).data.lookup p.1).getD [] = [] := by
    intro p _
    show (List.lookup p.1 [("default", [])]).getD [] = []
    cases hb : p.1 == "default" <;> simp [List.lookup_cons, hb]
  rw [loadStateLoop_view bb.save_state Blackboard.init hnd hinner hempty ns key]
  have hsl : bb.save_state.lookup ns
      = (bb.data.lookup ns).map
          (fun es => es.map (fun q => (q.1, saveEntry q.2))) :=
    lookup_map_snd _ bb.data ns
  rw [hsl]
  cases hd : bb.data.lookup ns with
  | none =>
    simp only [Option.map_none']
    unfold entryView
    rw [hd]
    cases hb : ns == "default" <;>
      simp [Blackboard.init, List.lookup_cons, hb]
  | some es =>
    simp only [Option.map_some']
    rw [lookup_map_snd]
    unfold entryView
    rw [hd]
    cases hk : es.lookup key with
    | none => simp [hk]
    | some e => simp [hk, saveEntry]

/-- A small concrete blackboard with two namespaces used as a witness. -/
def sampleBlackboard : Blackboard :=
  (Blackboard.init.set "hp" (.jInt 50) "default" (some "agent") 3).set
    "mode" (.jStr "patrol") "ai" none 5

/-- Witness for `c8_spec` at a concrete input. -/
theorem c8_witness :
    nsKeysNodup sampleBlackboard
    ∧ entryKeysNodup sampleBlackboard
    ∧ entryView (Blackboard.init.load_state sampleBlackboard.save_state)
        "default" "hp"
      = entryView sampleBlackboard "default" "hp" :=
  ⟨by unfold nsKeysNodup; decide, by unfold entryKeysNodup; decide,
    c8_spec sampleBlackboard (by unfold nsKeysNodup; decide)
      (by unfold entryKeysNodup; decide) "default" "hp"⟩

/-! ## TreeSnapshot (`core/tree_manager.py`)

`TreeSnapshot.__init__` first captures every node's status keyed by path
(`_capture_node_states`, preorder), then builds `blackboard_data` with
`for namespace in blackboard._data.keys(): {key: blackboard.get(key, ns)
for key in blackboard.get_keys(namespace)}`.  `Blackboard`
(`core/blackboard.py`) defines no attribute `get_keys` anywhere in the
repository, so evaluating `blackboard.get_keys` raises `AttributeError` on
the first namespace; the manager's blackboard always holds at least the
auto-created `default` namespace. -/

/-- A behaviour-tree node with its current status, for snapshot capture. -/
inductive BTree where
  | node (nm : String) (status : NodeStatus) (children : List BTree)

mutual

/-- `_capture_node_states`: records `node.get_path() → node.status`
preorder; `pp` is the parent's path (`None` at the root, since
`get_path()` of a parentless node is just its name). -/
def captureTree (pp : Option String) : BTree → List (String × NodeStatus)
  | .node nm st cs =>
    let path := match pp with
      | none => nm
      | some p => p ++ "/" ++ nm
    (path, st) :: captureChildren path cs

/-- Recursion of `_capture_node_states` over `node.children`. -/
def captureChildren (path : String) : List BTree → List (String × NodeStatus)
  | [] => []
  | t :: ts => captureTree (some path) t ++ captureChildren path ts

end

/-- The state a completed `TreeSnapshot.__init__` would produce. -/
structure TreeSnapshot where
  node_states : List (String × NodeStatus)
  blackboard_data : List (String × List (String × JValue))

/-- `TreeSnapshot.__init__` (invoked by `take_snapshot()`): node states are
captured, then the blackboard loop evaluates the missing attribute
`get_keys` and raises `AttributeError` as soon as `_data` has any
namespace. -/
def takeSnapshot (root : Option BTree) (bb : Blackboard) :
    Except PyErr TreeSnapshot :=
  let states := match root with
    | none => []
    | some t => captureTree none t
  match bb.data with
  | [] => .ok ⟨states, []⟩
  | _ :: _ => .error (.attributeErr "get_keys")

/-- C6 (code bug): for every manager whose blackboard has at least one
namespace — which holds for every `BehaviorTreeManager`, since
`Blackboard.__init__` creates `default` — `take_snapshot()` raises
`AttributeError` on the nonexistent `Blackboard.get_keys`, so the
snapshot/restore round trip the claim describes can never start. -/
theorem c6_snapshot_raises (root : Option BTree) (bb : Blackboard)
    (h : bb.data ≠ []) :
    takeSnapshot root bb = .error (.attributeErr "get_keys") := by
  unfold takeSnapshot
  cases hbb : bb.data with
  | nil => exact absurd hbb h
  | cons p rest => rfl

/-- A tree with mixed statuses used as a witness. -/
def sampleTree : BTree :=
  .node "root" .running
    [.node "child" .success [], .node "cond" .failure []]

/-- Witness for `c6_snapshot_raises` at a concrete input: a tree with mixed
statuses over a blackboard holding `hp = 50`. -/
theorem c6_witness :
    sampleBlackboard.data ≠ []
    ∧ takeSnapshot (some sampleTree) sampleBlackboard
      = .error (.attributeErr "get_keys") :=
  ⟨by decide,
    c6_snapshot_raises (some sampleTree) sampleBlackboard (by decide)⟩

end BehaviorTree
